import Mathlib

/-!
Shallow embedding of `src/runner/lib/sockets/js.py`, the execution bridge of
the Kode-Runner repository.  The Python source is:

```
TEMP_NODE_FILE = "temp.js"
async def execute_NODE(code, websocket):
    with open(TEMP_NODE_FILE, 'w') as file:
        file.write(code)
    child = pexpect.spawn(f"node {TEMP_NODE_FILE}", encoding="utf-8")
    while True:
        try:
            index = child.expect(['.', '\n', pexpect.EOF, pexpect.TIMEOUT], timeout=1)
            if index == 0 or index == 1:
                await websocket.send(child.after)
            elif index == 2:
                break
        except pexpect.exceptions.TIMEOUT:
            break
    os.remove(TEMP_NODE_FILE)

async def NODE(websocket, path):
    try:
        async for code in websocket:
            await execute_NODE(code, websocket)
    except websockets.exceptions.ConnectionClosedOK:
        pass
```

The embedding models the child's pseudo-terminal as a finite list of read
events (text delivered, end-of-file, or a full quiet interval with no
output), the websocket output sink as an optional bound on how many sends
succeed before the connection is closed, and the filesystem as the optional
contents of the single well-known location `temp.js`.  Exceptions are
explicit outcome values.

Relevant `pexpect` semantics reflected below (and justifying the shape of
`expect` and `readLoop`):
* `child.expect(list, timeout=1)` first searches the data already buffered,
  and only reads from the pty (waiting up to the timeout) when no pattern
  matches the buffer.  The patterns `'.'` and `'\n'` jointly match any
  single character at position 0 of a nonempty buffer (`'.'` matches any
  non-newline character, `'\n'` matches a newline; the searcher picks the
  match with the smallest start position), so a match always consumes
  exactly the first buffered character, `child.after` is that one-character
  string, and `child.before` (the text skipped before the match) is always
  empty.  `pexpect.EOF` is matched only once the buffer is empty and a read
  hits end-of-file.
* Because `pexpect.TIMEOUT` appears in the pattern list, a timeout makes
  `expect` RETURN index 3 instead of raising `pexpect.exceptions.TIMEOUT`;
  the `except ... TIMEOUT: break` handler is therefore unreachable, and an
  `index` of 3 matches neither `if` branch, so the loop simply iterates
  again.
* `pexpect.spawn("node temp.js")` raises `ExceptionPexpect` when the `node`
  binary is missing or unexecutable; this happens after the execution unit
  has been written and before the read loop, and propagates out of
  `execute_NODE` past the `os.remove` line.
* `websocket.send` raises `ConnectionClosedOK` once the client has closed
  the connection normally; `os.remove` raises `FileNotFoundError` when the
  file is absent.  Neither is caught inside `execute_NODE`; `NODE` catches
  only `ConnectionClosedOK`.
-/

namespace KodeRunner

/-- The fixed, process-wide well-known location of the Execution Unit
(`TEMP_NODE_FILE = "temp.js"`, js.py line 6). -/
def TEMP_NODE_FILE : String := "temp.js"

/-- One observable event on the child's pseudo-terminal, as consumed by a
`child.expect(..., timeout=1)` call (js.py line 16):

* `data s` — the pty delivered the text `s`;
* `eof`    — the interpreter exited and closed its pty (`pexpect.EOF`);
* `quiet`  — one full quiet interval (1 second) elapsed with no output
  (`pexpect.TIMEOUT`).

A run of a child process is modelled as a finite list of such events; a
process that stays silent without exiting is approximated by a list ending
without `eof` (the modelled horizon ends while the loop is still waiting). -/
inductive ReadEvent : Type
  | data (s : String)
  | eof
  | quiet
deriving DecidableEq, Repr

/-- Result of one `child.expect(['.', '\n', pexpect.EOF, pexpect.TIMEOUT],
timeout=1)` call:

* `matched before after` — index 0 or 1: some single character matched;
  `before` models `child.before` (text skipped before the match) and
  `after` models `child.after` (the matched text);
* `eofR`     — index 2 (`pexpect.EOF`);
* `timeoutR` — index 3 (`pexpect.TIMEOUT`, returned, not raised);
* `blocked`  — model artifact: the event list is exhausted while the call
  is still waiting (the modelled horizon ends here). -/
inductive ExpRes : Type
  | matched (before after : String)
  | eofR
  | timeoutR
  | blocked
deriving DecidableEq, Repr

/-- Model of one `child.expect(['.', '\n', pexpect.EOF, pexpect.TIMEOUT],
timeout=1)` call (js.py line 16), given the characters of the currently
buffered pty text and the pending pty events.  Returns the result together
with the remaining buffer and remaining events.  A nonempty buffer always
yields a match of exactly its first character with an empty `before` (see
the header comment for the pexpect semantics); an empty buffer consumes
the next event. -/
def expect : List Char → List ReadEvent → ExpRes × List Char × List ReadEvent
  | c :: rest, events => (ExpRes.matched "" (String.mk [c]), rest, events)
  | [], [] => (ExpRes.blocked, [], [])
  | [], ReadEvent.data s :: evs => expect s.data evs
  | [], ReadEvent.eof :: evs => (ExpRes.eofR, [], evs)
  | [], ReadEvent.quiet :: evs => (ExpRes.timeoutR, [], evs)

/-- Exceptions that can travel through this code:

* `spawnFailure` — `pexpect.ExceptionPexpect` from `pexpect.spawn` when the
  `node` binary is missing or unexecutable (js.py line 12);
* `connClosedOk` — `websockets.exceptions.ConnectionClosedOK` from
  `websocket.send` after the client closed the connection normally
  (js.py line 19);
* `connError` — any other channel-level failure while waiting for a payload
  (`websockets.exceptions.ConnectionClosedError`, js.py line 28);
* `fileNotFound` — `FileNotFoundError` from `os.remove` when `temp.js` is
  absent (js.py line 24). -/
inductive Exc : Type
  | spawnFailure
  | connClosedOk
  | connError
  | fileNotFound
deriving DecidableEq, Repr

/-- How the `while True` loop of js.py lines 14-23 ended:

* `completed` — `break` on index 2 (`pexpect.EOF`);
* `raised e`  — an exception propagated out of the loop body (in this loop
  only `websocket.send` can raise: `connClosedOk`);
* `stuck`     — the modelled event horizon was exhausted with the loop
  still iterating (in particular, `pexpect.TIMEOUT` results never leave
  the loop: index 3 matches neither branch and the dead
  `except TIMEOUT` handler never fires). -/
inductive RunOutcome : Type
  | completed
  | raised (e : Exc)
  | stuck
deriving DecidableEq, Repr

/-- Whether the `i`-th `websocket.send` of a run succeeds.  `none` models a
client that never closes; `some n` models a client whose connection is
closed from the `n`-th send on (that send raises `ConnectionClosedOK`). -/
def sendOk : Option Nat → Nat → Bool
  | none, _ => true
  | some n, i => decide (i < n)

/-- The sends performed while the loop drains one buffered chunk of pty
text character by character (each iteration of js.py lines 16-19 matches
one character and sends it as `child.after`).  Given the send bound, the
number of sends already made and the chunk's characters, returns the frames
actually sent, the updated send count, and whether a send raised
`ConnectionClosedOK` (aborting the loop). -/
def sendChars (limit : Option Nat) : Nat → List Char → List String × Nat × Bool
  | sent, [] => ([], sent, false)
  | sent, c :: cs =>
    if sendOk limit sent then
      let r := sendChars limit (sent + 1) cs
      (String.mk [c] :: r.1, r.2.1, r.2.2)
    else ([], sent, true)

/-- The `while True` read loop of js.py lines 14-23, from an empty pty
buffer.  Each `data s` event is drained character by character (index 0 or
1: send `child.after`, a single character); `eof` hits index 2 and breaks;
`quiet` yields index 3, which matches neither `if` branch (and does not
raise, `pexpect.TIMEOUT` being in the pattern list), so the loop just
iterates again.  Returns the frames sent, in order, and how the loop
ended. -/
def readLoop (limit : Option Nat) : Nat → List ReadEvent → List String × RunOutcome
  | _, [] => ([], RunOutcome.stuck)
  | sent, ReadEvent.data s :: evs =>
    let r := sendChars limit sent s.data
    if r.2.2 then (r.1, RunOutcome.raised Exc.connClosedOk)
    else
      let rest := readLoop limit r.2.1 evs
      (r.1 ++ rest.1, rest.2)
  | _, ReadEvent.eof :: _ => ([], RunOutcome.completed)
  | sent, ReadEvent.quiet :: evs => readLoop limit sent evs

/-- Externally observable actions of one `execute_NODE` invocation, in
program order. -/
inductive Action : Type
  | writeUnit (path contents : String)
  | closeUnit (path : String)
  | spawn (cmd : String)
  | send (frame : String)
  | removeUnit (path : String)
deriving DecidableEq, Repr

/-- The environment one `execute_NODE` invocation runs in:

* `nodeAvailable` — whether the `node` binary is resolvable and executable
  (when false, `pexpect.spawn` raises);
* `events` — the pty events the spawned interpreter produces;
* `sendLimit` — the websocket send behaviour (see `sendOk`);
* `unitRemovedExternally` — whether some external agent deletes `temp.js`
  during the run, so that it is already absent when `os.remove` runs. -/
structure Env : Type where
  nodeAvailable : Bool
  events : List ReadEvent
  sendLimit : Option Nat
  unitRemovedExternally : Bool
deriving DecidableEq, Repr

/-- How one whole `execute_NODE` invocation ended: returned normally,
raised an exception to its caller, or was still running at the end of the
modelled horizon. -/
inductive Outcome : Type
  | ok
  | raised (e : Exc)
  | running
deriving DecidableEq, Repr

/-- The observable result of one `execute_NODE` invocation: the contents of
`temp.js` afterwards (`none` = absent), the frames sent to the websocket in
order, the action trace, and the outcome. -/
structure InvocationResult : Type where
  fs : Option String
  frames : List String
  trace : List Action
  outcome : Outcome
deriving DecidableEq, Repr

/-- Model of `execute_NODE(code, websocket)` (js.py lines 8-24), starting
from filesystem state `fs0` (the contents of `temp.js`, or `none`):

1. `with open(TEMP_NODE_FILE, 'w') as file: file.write(code)` — the unit is
   written with exactly `code` and the `with` block closes it;
2. `pexpect.spawn("node temp.js")` — raises `spawnFailure` when `node` is
   unavailable (the unit stays on disk: `os.remove` is never reached);
3. the read loop (`readLoop`); a send failure propagates `connClosedOk`
   past `os.remove`;
4. on a `break` via EOF, `os.remove(TEMP_NODE_FILE)` — raising
   `fileNotFound` if the file is already gone. -/
def execute_NODE (env : Env) (code : String) (_fs0 : Option String) : InvocationResult :=
  let fs1 : Option String := some code
  let tr1 : List Action :=
    [Action.writeUnit TEMP_NODE_FILE code, Action.closeUnit TEMP_NODE_FILE,
     Action.spawn ("node " ++ TEMP_NODE_FILE)]
  if env.nodeAvailable then
    let r := readLoop env.sendLimit 0 env.events
    let tr2 := tr1 ++ r.1.map Action.send
    let fs2 := if env.unitRemovedExternally then none else fs1
    match r.2 with
    | RunOutcome.completed =>
      match fs2 with
      | some _ =>
        { fs := none, frames := r.1, trace := tr2 ++ [Action.removeUnit TEMP_NODE_FILE],
          outcome := Outcome.ok }
      | none =>
        { fs := none, frames := r.1, trace := tr2, outcome := Outcome.raised Exc.fileNotFound }
    | RunOutcome.raised e =>
      { fs := fs2, frames := r.1, trace := tr2, outcome := Outcome.raised e }
    | RunOutcome.stuck =>
      { fs := fs2, frames := r.1, trace := tr2, outcome := Outcome.running }
  else
    { fs := fs1, frames := [], trace := tr1, outcome := Outcome.raised Exc.spawnFailure }

/-- How the connection's payload stream ends once all payloads are consumed
(js.py line 28): a normal client close makes `async for` finish silently;
any other channel-level failure raises `ConnectionClosedError` out of it. -/
inductive CloseKind : Type
  | clientClose
  | channelError
deriving DecidableEq, Repr

/-- How the whole per-connection handler `NODE` ended. -/
inductive NodeOutcome : Type
  | returned
  | raised (e : Exc)
  | running
deriving DecidableEq, Repr

/-- The observable result of one `NODE(websocket, path)` call. -/
structure NodeResult : Type where
  frames : List String
  fs : Option String
  outcome : NodeOutcome
deriving DecidableEq, Repr

/-- Model of `NODE(websocket, path)` (js.py lines 26-31) over a connection
delivering the given payloads, each paired with the environment its
execution runs in, then ending as `ck` says.  Payloads are processed
strictly in order, each by one awaited `execute_NODE` call; an invocation
raising `ConnectionClosedOK` is caught by the `except` clause (`NODE`
returns silently); any other exception propagates out of `NODE`. -/
def runNODE : List (String × Env) → CloseKind → Option String → NodeResult
  | [], ck, fs =>
    { frames := [], fs := fs,
      outcome :=
        match ck with
        | CloseKind.clientClose => NodeOutcome.returned
        | CloseKind.channelError => NodeOutcome.raised Exc.connError }
  | (code, env) :: rest, ck, fs =>
    let r := execute_NODE env code fs
    match r.outcome with
    | Outcome.ok =>
      let n := runNODE rest ck r.fs
      { frames := r.frames ++ n.frames, fs := n.fs, outcome := n.outcome }
    | Outcome.raised Exc.connClosedOk =>
      { frames := r.frames, fs := r.fs, outcome := NodeOutcome.returned }
    | Outcome.raised e =>
      { frames := r.frames, fs := r.fs, outcome := NodeOutcome.raised e }
    | Outcome.running =>
      { frames := r.frames, fs := r.fs, outcome := NodeOutcome.running }

/-- The frames a `NODE` call delivers, each tagged with the (0-based) index
of the payload whose `execute_NODE` invocation sent it.  The tag is a
modelling device to talk about which payload a frame belongs to; the frames
themselves are exactly those of `runNODE`. -/
def nodeTrace : Nat → Option String → List (String × Env) → List (Nat × String)
  | _, _, [] => []
  | i, fs, (code, env) :: rest =>
    let r := execute_NODE env code fs
    r.frames.map (fun f => (i, f)) ++
      (match r.outcome with
       | Outcome.ok => nodeTrace (i + 1) r.fs rest
       | _ => [])

/-- Whether every payload's invocation on this connection runs to a normal
return (no exception, horizon not exhausted), threading the filesystem
state through. -/
def allOk : Option String → List (String × Env) → Bool
  | _, [] => true
  | fs, (code, env) :: rest =>
    let r := execute_NODE env code fs
    decide (r.outcome = Outcome.ok) && allOk r.fs rest

/-- All pty text produced before the first `eof` event (for an event list
without `eof`: all pty text of the modelled horizon).  This is the output
the interpreter produced up to the point the read loop exited. -/
def ptyOutputBeforeEof : List ReadEvent → String
  | [] => ""
  | ReadEvent.data s :: evs => s ++ ptyOutputBeforeEof evs
  | ReadEvent.eof :: _ => ""
  | ReadEvent.quiet :: evs => ptyOutputBeforeEof evs

/-- Concatenation of a list of frames into one string, in delivery order. -/
def concatFrames : List String → String
  | [] => ""
  | f :: fs => f ++ concatFrames fs

/-- C1: the claim says a quiet interval with no output makes the read loop
exit within threshold + epsilon and that no Output Frame is sent afterwards.
The code does the opposite: because `pexpect.TIMEOUT` is in the pattern
list, a timeout returns index 3, which matches neither `if` branch, so the
loop iterates again (the `except TIMEOUT: break` handler is dead code).
First conjunct: a `quiet` event leaves the loop running unchanged, for any
send bound and send count.  Second conjunct: after three full quiet
intervals the loop is still reading and forwards the late output `"late"`.
Third conjunct: a process that stays silent for the whole modelled horizon
leaves the loop still running, never exited. -/
theorem timeout_branch_dead :
    (∀ (limit : Option Nat) (sent : Nat) (evs : List ReadEvent),
        readLoop limit sent (ReadEvent.quiet :: evs) = readLoop limit sent evs) ∧
    (readLoop none 0
        [ReadEvent.quiet, ReadEvent.quiet, ReadEvent.quiet, ReadEvent.data "late",
         ReadEvent.eof]).1 = ["l", "a", "t", "e"] ∧
    (readLoop none 0
        [ReadEvent.quiet, ReadEvent.quiet, ReadEvent.quiet]).2 = RunOutcome.stuck :=
  ⟨fun _ _ _ => rfl, by decide, by decide⟩

/-- C2 counterexample: on the spawn-failure path (the `node` binary is
unavailable) `pexpect.spawn` raises before the read loop, `os.remove` on
js.py line 24 is never reached, and the Execution Unit written at `temp.js`
is still present after the run — the claim that the unit is absent on all
three completion paths is false. -/
theorem spawn_failure_leaves_unit_cex :
    (execute_NODE ⟨false, [], none, false⟩ "x" none).outcome
        = Outcome.raised Exc.spawnFailure ∧
    (execute_NODE ⟨false, [], none, false⟩ "x" none).fs = some "x" := by
  constructor <;> decide

/-- C2 amended: with no external interference, the Execution Unit is absent
after the run exactly on the end-of-stream path: when the interpreter
spawns and the read loop breaks on EOF, `os.remove` runs and `temp.js` is
absent afterwards; when the spawn fails, the exception propagates before
cleanup and `temp.js` remains present with the submitted code.  (There is
no timeout-completion path: see `timeout_branch_dead`.) -/
theorem unit_removed_only_on_eof (env : Env) (code : String) (fs0 : Option String)
    (hext : env.unitRemovedExternally = false) :
    (env.nodeAvailable = true →
        (readLoop env.sendLimit 0 env.events).2 = RunOutcome.completed →
        (execute_NODE env code fs0).fs = none) ∧
    (env.nodeAvailable = false → (execute_NODE env code fs0).fs = some code) := by
  constructor
  · intro hn hc
    simp [execute_NODE, hn, hext, hc]
  · intro hn
    simp [execute_NODE, hn]

/-- Witness for `unit_removed_only_on_eof` at a concrete run: interpreter
available, immediate EOF, no disconnect, no external deletion. -/
theorem unit_removed_only_on_eof_witness :
    (execute_NODE ⟨true, [ReadEvent.eof], none, false⟩ "x" none).fs = none :=
  (unit_removed_only_on_eof ⟨true, [ReadEvent.eof], none, false⟩ "x" none rfl).1
    rfl (by decide)

/-- C3 counterexample: the client disconnects mid-run (the second send
raises `ConnectionClosedOK`); the exception propagates out of
`execute_NODE` past `os.remove`, so the Execution Unit is NOT removed —
the claim's cleanup half is false. -/
theorem disconnect_skips_cleanup_cex :
    (execute_NODE ⟨true, [ReadEvent.data "ab", ReadEvent.eof], some 1, false⟩
        "x" none).outcome = Outcome.raised Exc.connClosedOk ∧
    (execute_NODE ⟨true, [ReadEvent.data "ab", ReadEvent.eof], some 1, false⟩
        "x" none).fs = some "x" := by
  constructor <;> decide

/-- C3 amended: when a mid-run send fails with `ConnectionClosedOK`, the
exception does escape `execute_NODE`, but `NODE`'s `except` clause catches
it, so no unhandled failure leaves the per-connection handler; however
cleanup does NOT occur: `os.remove` is skipped and `temp.js` keeps the
submitted code. -/
theorem disconnect_caught_but_no_cleanup (env : Env) (code : String)
    (fs0 : Option String) (rest : List (String × Env)) (ck : CloseKind)
    (h : (execute_NODE env code fs0).outcome = Outcome.raised Exc.connClosedOk)
    (hext : env.unitRemovedExternally = false) :
    (runNODE ((code, env) :: rest) ck fs0).outcome = NodeOutcome.returned ∧
    (execute_NODE env code fs0).fs = some code := by
  have h2 : (execute_NODE env code fs0).fs = some code := by
    rcases hn : env.nodeAvailable with _ | _
    · simp [execute_NODE, hn] at h
    · rcases hr : (readLoop env.sendLimit 0 env.events).2 with _ | e | _
      · simp [execute_NODE, hn, hext, hr] at h
      · simp [execute_NODE, hn, hext, hr]
      · simp [execute_NODE, hn, hext, hr] at h
  exact ⟨by simp [runNODE, h], h2⟩

/-- Witness for `disconnect_caught_but_no_cleanup` at the concrete mid-run
disconnect of `disconnect_skips_cleanup_cex`'s environment shape (second
send fails). -/
theorem disconnect_caught_but_no_cleanup_witness :
    (runNODE [("y", ⟨true, [ReadEvent.data "ab", ReadEvent.eof], some 1, false⟩)]
        CloseKind.clientClose none).outcome = NodeOutcome.returned ∧
    (execute_NODE ⟨true, [ReadEvent.data "ab", ReadEvent.eof], some 1, false⟩
        "y" none).fs = some "y" :=
  disconnect_caught_but_no_cleanup ⟨true, [ReadEvent.data "ab", ReadEvent.eof], some 1, false⟩
    "y" none [] CloseKind.clientClose (by decide) rfl

/-- C4 counterexample: when the `node` binary is unavailable, no Output
Frame at all is sent to the client (frames are empty), and the
`ExceptionPexpect` propagates out of `NODE` uncaught — the claim that the
failure is reported to the client as a diagnostic Output Frame is false. -/
theorem spawn_failure_unreported_cex :
    (execute_NODE ⟨false, [], none, false⟩ "y" none).frames = [] ∧
    (runNODE [("y", ⟨false, [], none, false⟩)] CloseKind.clientClose none).outcome
        = NodeOutcome.raised Exc.spawnFailure := by
  constructor <;> decide

/-- C4 amended: a spawn failure is terminal for the single invocation, but
it is reported to nobody over the channel: no Output Frame is sent, the
exception `spawnFailure` escapes `execute_NODE`, is not caught by `NODE`'s
`except ConnectionClosedOK`, and propagates out of the per-connection
handler (tearing it down). -/
theorem spawn_failure_propagates (env : Env) (code : String) (fs0 : Option String)
    (rest : List (String × Env)) (ck : CloseKind)
    (hn : env.nodeAvailable = false) :
    (execute_NODE env code fs0).frames = [] ∧
    (execute_NODE env code fs0).outcome = Outcome.raised Exc.spawnFailure ∧
    (runNODE ((code, env) :: rest) ck fs0).outcome
        = NodeOutcome.raised Exc.spawnFailure := by
  have h1 : (execute_NODE env code fs0).outcome = Outcome.raised Exc.spawnFailure := by
    simp [execute_NODE, hn]
  refine ⟨by simp [execute_NODE, hn], h1, by simp [runNODE, h1]⟩

/-- Witness for `spawn_failure_propagates` at a concrete invocation with
the interpreter binary unavailable. -/
theorem spawn_failure_propagates_witness :
    (execute_NODE ⟨false, [], none, false⟩ "z" none).frames = [] ∧
    (execute_NODE ⟨false, [], none, false⟩ "z" none).outcome
        = Outcome.raised Exc.spawnFailure ∧
    (runNODE [("z", ⟨false, [], none, false⟩)] CloseKind.channelError none).outcome
        = NodeOutcome.raised Exc.spawnFailure :=
  spawn_failure_propagates ⟨false, [], none, false⟩ "z" none [] CloseKind.channelError rfl

/-- C9 counterexample: `os.remove` is not guarded; when `temp.js` is
already absent at cleanup time, `FileNotFoundError` is raised, escapes
`execute_NODE`, is not `ConnectionClosedOK`, and propagates out of `NODE`
as well — the claim that a cleanup failure is non-fatal and does not
propagate is false. -/
theorem cleanup_failure_fatal_cex :
    (execute_NODE ⟨true, [ReadEvent.eof], none, true⟩ "x" none).outcome
        = Outcome.raised Exc.fileNotFound ∧
    (runNODE [("x", ⟨true, [ReadEvent.eof], none, true⟩)] CloseKind.clientClose
        none).outcome = NodeOutcome.raised Exc.fileNotFound := by
  constructor <;> decide

/-- C9 amended: if the Execution Unit is already absent when `os.remove`
runs (after a run that completed via EOF), the invocation raises
`FileNotFoundError`, and the exception propagates out of `execute_NODE`
and out of `NODE`: cleanup failure is fatal to the invocation and to the
connection handler, not logged-and-ignored. -/
theorem cleanup_failure_propagates (env : Env) (code : String) (fs0 : Option String)
    (rest : List (String × Env)) (ck : CloseKind)
    (hn : env.nodeAvailable = true) (hext : env.unitRemovedExternally = true)
    (hc : (readLoop env.sendLimit 0 env.events).2 = RunOutcome.completed) :
    (execute_NODE env code fs0).outcome = Outcome.raised Exc.fileNotFound ∧
    (runNODE ((code, env) :: rest) ck fs0).outcome
        = NodeOutcome.raised Exc.fileNotFound := by
  have h1 : (execute_NODE env code fs0).outcome = Outcome.raised Exc.fileNotFound := by
    simp [execute_NODE, hn, hext, hc]
  exact ⟨h1, by simp [runNODE, h1]⟩

/-- Witness for `cleanup_failure_propagates` at a concrete run: immediate
EOF, unit externally deleted during the run. -/
theorem cleanup_failure_propagates_witness :
    (execute_NODE ⟨true, [ReadEvent.eof], none, true⟩ "w" none).outcome
        = Outcome.raised Exc.fileNotFound ∧
    (runNODE [("w", ⟨true, [ReadEvent.eof], none, true⟩)] CloseKind.clientClose
        none).outcome = NodeOutcome.raised Exc.fileNotFound :=
  cleanup_failure_propagates ⟨true, [ReadEvent.eof], none, true⟩ "w" none []
    CloseKind.clientClose rfl rfl (by decide)

/-- String append is associative (helper for frame concatenation). -/
theorem str_append_assoc (a b c : String) : a ++ b ++ c = a ++ (b ++ c) := by
  obtain ⟨x⟩ := a
  obtain ⟨y⟩ := b
  obtain ⟨z⟩ := c
  show String.mk (x ++ y ++ z) = String.mk (x ++ (y ++ z))
  rw [List.append_assoc]

/-- The empty string is a left unit for append (helper). -/
theorem str_empty_append (s : String) : "" ++ s = s := rfl

/-- `concatFrames` turns list append into string append (helper). -/
theorem concatFrames_append (l₁ l₂ : List String) :
    concatFrames (l₁ ++ l₂) = concatFrames l₁ ++ concatFrames l₂ := by
  induction l₁ with
  | nil => rw [List.nil_append]; exact (str_empty_append _).symm
  | cons f l ih =>
    show f ++ concatFrames (l ++ l₂) = f ++ concatFrames l ++ concatFrames l₂
    rw [ih, str_append_assoc]

/-- Rebuilding a string from its character list is the identity
(helper; structure eta). -/
theorem mk_data_eq (s : String) : String.mk s.data = s := rfl

/-- Concatenating one-character frames rebuilds the original text
(helper). -/
theorem concatFrames_singletons (cs : List Char) :
    concatFrames (cs.map (fun c => String.mk [c])) = String.mk cs := by
  induction cs with
  | nil => rfl
  | cons c cs ih =>
    show String.mk [c] ++ concatFrames (cs.map (fun c => String.mk [c]))
        = String.mk (c :: cs)
    rw [ih]
    rfl

/-- With a sink that never closes, draining a chunk sends every character
as its own one-character frame, in order, and never aborts (helper). -/
theorem sendChars_none (sent : Nat) (cs : List Char) :
    sendChars none sent cs
      = (cs.map (fun c => String.mk [c]), sent + cs.length, false) := by
  induction cs generalizing sent with
  | nil => simp [sendChars]
  | cons c cs ih =>
    simp [sendChars, sendOk, ih]
    omega

/-- C8: with a client that stays connected, concatenating the Output
Frames a run sends reproduces exactly the terminal output the interpreter
produced up to the point the read loop exited (whether the loop broke on
EOF or was still waiting at the end of the modelled horizon); in
particular the frames are exact slices in production order and no output
is withheld. -/
theorem frames_join_produced_output (events : List ReadEvent) (sent : Nat) :
    concatFrames (readLoop none sent events).1 = ptyOutputBeforeEof events := by
  induction events generalizing sent with
  | nil => rfl
  | cons e evs ih =>
    cases e with
    | data s =>
      simp only [readLoop, sendChars_none, Bool.false_eq_true, if_false,
        ptyOutputBeforeEof, concatFrames_append, concatFrames_singletons, ih,
        mk_data_eq]
    | eof => rfl
    | quiet =>
      simp only [readLoop, ptyOutputBeforeEof, ih]

/-- Every frame emitted while draining one chunk is one character long
(helper). -/
theorem sendChars_mem_len (cs : List Char) (limit : Option Nat) (sent : Nat)
    (f : String) (hf : f ∈ (sendChars limit sent cs).1) : f.length = 1 := by
  induction cs generalizing sent with
  | nil => simp [sendChars] at hf
  | cons c cs ih =>
    rcases hok : sendOk limit sent with _ | _
    · simp [sendChars, hok] at hf
    · simp only [sendChars, hok, if_true, List.mem_cons] at hf
      rcases hf with rfl | hf
      · rfl
      · exact ih (sent + 1) hf

/-- Every frame the read loop sends is one character long (helper). -/
theorem readLoop_frames_len (limit : Option Nat) (events : List ReadEvent)
    (sent : Nat) (f : String) (hf : f ∈ (readLoop limit sent events).1) :
    f.length = 1 := by
  induction events generalizing sent with
  | nil => simp [readLoop] at hf
  | cons e evs ih =>
    cases e with
    | data s =>
      rcases hab : (sendChars limit sent s.data).2.2 with _ | _
      · simp only [readLoop, hab, Bool.false_eq_true, if_false, List.mem_append] at hf
        rcases hf with hf | hf
        · exact sendChars_mem_len s.data limit sent f hf
        · exact ih _ hf
      · simp only [readLoop, hab, if_true] at hf
        exact sendChars_mem_len s.data limit sent f hf
    | eof => simp [readLoop] at hf
    | quiet => exact ih sent (by simpa [readLoop] using hf)

/-- A successful `expect` match always matches exactly the first buffered
character: `child.before` is empty and `child.after` is one character long
(helper). -/
theorem expect_matched_spec (events : List ReadEvent) :
    ∀ (buffer : List Char) (b a : String) (buf : List Char) (evs : List ReadEvent),
      expect buffer events = (ExpRes.matched b a, buf, evs) →
      b = "" ∧ a.length = 1 := by
  induction events with
  | nil =>
    intro buffer b a buf evs h
    cases buffer with
    | nil => simp [expect] at h
    | cons c rest =>
      simp only [expect, Prod.mk.injEq, ExpRes.matched.injEq] at h
      obtain ⟨⟨h1, h2⟩, -, -⟩ := h
      subst h1
      subst h2
      exact ⟨rfl, rfl⟩
  | cons e evs' ih =>
    intro buffer b a buf evs h
    cases buffer with
    | nil =>
      cases e with
      | data s => exact ih s.data b a buf evs (by simpa [expect] using h)
      | eof => simp [expect] at h
      | quiet => simp [expect] at h
    | cons c rest =>
      simp only [expect, Prod.mk.injEq, ExpRes.matched.injEq] at h
      obtain ⟨⟨h1, h2⟩, -, -⟩ := h
      subst h1
      subst h2
      exact ⟨rfl, rfl⟩

/-- C10: every Output Frame a run sends to the websocket is exactly one
character long — it is `child.after`, the single matched character — and
`child.before`, the text skipped before a match, is always the empty
string, so it is never sent in a frame. -/
theorem frames_single_char :
    (∀ (limit : Option Nat) (sent : Nat) (events : List ReadEvent) (f : String),
        f ∈ (readLoop limit sent events).1 → f.length = 1) ∧
    (∀ (buffer : List Char) (events : List ReadEvent) (b a : String)
        (buf : List Char) (evs : List ReadEvent),
        expect buffer events = (ExpRes.matched b a, buf, evs) →
        b = "" ∧ a.length = 1) :=
  ⟨fun limit sent events f hf => readLoop_frames_len limit events sent f hf,
   fun buffer events b a buf evs h => expect_matched_spec events buffer b a buf evs h⟩

/-- Witness for `frames_single_char`: in the run that sends `"h"` then
`"i"`, the frame `"h"` has length one; and the `expect` call on a buffer
holding `"x"` matches with empty `before` and the one-character `after`
`"x"`. -/
theorem frames_single_char_witness :
    ("h" : String).length = 1 ∧ (("" : String) = "" ∧ ("x" : String).length = 1) :=
  ⟨frames_single_char.1 none 0 [ReadEvent.data "hi", ReadEvent.eof] "h" (by decide),
   frames_single_char.2 [Char.ofNat 120] [ReadEvent.eof] "" "x" [] [ReadEvent.eof]
     (by decide)⟩

/-- C5: on a connection whose every payload execution returns normally,
the `async for` loop of `NODE` ends silently when the client closes the
connection normally, while any other channel-level failure while waiting
for a payload propagates out of `NODE` (it is not `ConnectionClosedOK`,
so the `except` clause does not catch it). -/
theorem close_silent_error_propagates (ps : List (String × Env))
    (fs0 : Option String) (h : allOk fs0 ps = true) :
    (runNODE ps CloseKind.clientClose fs0).outcome = NodeOutcome.returned ∧
    (runNODE ps CloseKind.channelError fs0).outcome
        = NodeOutcome.raised Exc.connError := by
  induction ps generalizing fs0 with
  | nil => exact ⟨rfl, rfl⟩
  | cons p rest ih =>
    obtain ⟨code, env⟩ := p
    simp only [allOk, Bool.and_eq_true, decide_eq_true_eq] at h
    obtain ⟨h1, h2⟩ := h
    have := ih _ h2
    constructor <;> simp [runNODE, h1, this.1, this.2]

/-- Witness for `close_silent_error_propagates` on a connection with one
payload whose run prints `"hi"` and exits. -/
theorem close_silent_error_propagates_witness :
    (runNODE [("x", ⟨true, [ReadEvent.data "hi", ReadEvent.eof], none, false⟩)]
        CloseKind.clientClose none).outcome = NodeOutcome.returned ∧
    (runNODE [("x", ⟨true, [ReadEvent.data "hi", ReadEvent.eof], none, false⟩)]
        CloseKind.channelError none).outcome = NodeOutcome.raised Exc.connError :=
  close_silent_error_propagates
    [("x", ⟨true, [ReadEvent.data "hi", ReadEvent.eof], none, false⟩)] none (by decide)

/-- Every tagged frame of the per-connection trace starting at payload
index `i` carries an index at least `i` (helper). -/
theorem nodeTrace_fst_ge (ps : List (String × Env)) :
    ∀ (i : Nat) (fs : Option String) (q : Nat × String),
      q ∈ nodeTrace i fs ps → i ≤ q.1 := by
  induction ps with
  | nil =>
    intro i fs q hq
    simp [nodeTrace] at hq
  | cons p rest ih =>
    intro i fs q hq
    obtain ⟨code, env⟩ := p
    rcases ho : (execute_NODE env code fs).outcome with _ | e | _ <;>
      simp only [nodeTrace, ho, List.mem_append, List.mem_map, List.append_nil] at hq
    · rcases hq with ⟨f, -, rfl⟩ | hq
      · exact Nat.le_refl i
      · exact Nat.le_of_succ_le (ih (i + 1) _ q hq)
    · obtain ⟨f, -, rfl⟩ := hq
      exact Nat.le_refl i
    · obtain ⟨f, -, rfl⟩ := hq
      exact Nat.le_refl i

/-- A constant-tagged block of frames has pairwise non-decreasing tags
(helper). -/
theorem pairwise_le_const_map (i : Nat) (l : List String) :
    (l.map (fun _ => i)).Pairwise (fun x y => x ≤ y) := by
  induction l with
  | nil => simp
  | cons f l ih =>
    simp only [List.map_cons, List.pairwise_cons]
    refine ⟨?_, ih⟩
    intro y hy
    simp only [List.mem_map] at hy
    obtain ⟨-, -, rfl⟩ := hy
    exact Nat.le_refl i

/-- The payload tags along the whole per-connection frame trace are
non-decreasing (helper). -/
theorem nodeTrace_fst_sorted (ps : List (String × Env)) :
    ∀ (i : Nat) (fs : Option String),
      ((nodeTrace i fs ps).map Prod.fst).Pairwise (fun x y => x ≤ y) := by
  induction ps with
  | nil =>
    intro i fs
    simp [nodeTrace]
  | cons p rest ih =>
    intro i fs
    obtain ⟨code, env⟩ := p
    rcases ho : (execute_NODE env code fs).outcome with _ | e | _ <;>
      simp only [nodeTrace, ho, List.map_append, List.map_map, List.append_nil]
    · rw [List.pairwise_append]
      refine ⟨pairwise_le_const_map i _, ih (i + 1) _, ?_⟩
      intro x hx y hy
      simp only [List.map_map, List.mem_map, Function.comp] at hx
      obtain ⟨-, -, rfl⟩ := hx
      simp only [List.mem_map] at hy
      obtain ⟨q, hq, rfl⟩ := hy
      exact Nat.le_of_succ_le (nodeTrace_fst_ge rest (i + 1) _ q hq)
    · exact pairwise_le_const_map i _
    · exact pairwise_le_const_map i _

/-- The frames `NODE` delivers are exactly the tagged trace's frames, in
the same order (helper). -/
theorem runNODE_frames_eq (ps : List (String × Env)) :
    ∀ (ck : CloseKind) (fs : Option String) (i : Nat),
      (runNODE ps ck fs).frames = (nodeTrace i fs ps).map Prod.snd := by
  induction ps with
  | nil =>
    intro ck fs i
    simp [runNODE, nodeTrace]
  | cons p rest ih =>
    intro ck fs i
    obtain ⟨code, env⟩ := p
    rcases ho : (execute_NODE env code fs).outcome with _ | e | _
    · simp [runNODE, nodeTrace, ho, ih ck _ (i + 1)]
    · rcases e <;> simp [runNODE, nodeTrace, ho]
    · simp [runNODE, nodeTrace, ho]

/-- C6: payloads on one connection are processed strictly sequentially
(the model invokes `execute_NODE` for payload `N+1` only in the branch
where payload `N`'s invocation returned normally), and the frames `NODE`
delivers are exactly the per-payload frame blocks in payload order: the
delivered frames equal the tagged trace's frames, and the payload tags
along that trace never decrease, so no frame of payload `N` is delivered
after any frame of payload `N+1`. -/
theorem frames_per_payload_ordered (ps : List (String × Env)) (ck : CloseKind)
    (fs0 : Option String) :
    (runNODE ps ck fs0).frames = (nodeTrace 0 fs0 ps).map Prod.snd ∧
    ((nodeTrace 0 fs0 ps).map Prod.fst).Pairwise (fun x y => x ≤ y) :=
  ⟨runNODE_frames_eq ps ck fs0 0, nodeTrace_fst_sorted ps 0 fs0⟩

/-- C7: in every invocation, the trace begins with writing the Execution
Unit at `temp.js` with exactly the submitted source text, closing it, and
only then spawning `node temp.js`; no later action writes the unit or
spawns again. -/
theorem unit_written_before_spawn (env : Env) (code : String) (fs0 : Option String) :
    ∃ rest, (execute_NODE env code fs0).trace
        = Action.writeUnit TEMP_NODE_FILE code :: Action.closeUnit TEMP_NODE_FILE ::
          Action.spawn ("node " ++ TEMP_NODE_FILE) :: rest ∧
      ∀ a ∈ rest, (∀ p c, a ≠ Action.writeUnit p c) ∧ (∀ c, a ≠ Action.spawn c) := by
  rcases hn : env.nodeAvailable with _ | _
  · refine ⟨[], by simp [execute_NODE, hn], by simp⟩
  · rcases hr : (readLoop env.sendLimit 0 env.events).2 with _ | e | _
    · rcases hext : env.unitRemovedExternally with _ | _
      · refine ⟨(readLoop env.sendLimit 0 env.events).1.map Action.send
            ++ [Action.removeUnit TEMP_NODE_FILE], ?_, ?_⟩
        · simp [execute_NODE, hn, hr, hext]
        · intro a ha
          simp only [List.mem_append, List.mem_map, List.mem_singleton] at ha
          rcases ha with ⟨f, -, rfl⟩ | rfl <;> simp
      · refine ⟨(readLoop env.sendLimit 0 env.events).1.map Action.send, ?_, ?_⟩
        · simp [execute_NODE, hn, hr, hext]
        · intro a ha
          simp only [List.mem_map] at ha
          obtain ⟨f, -, rfl⟩ := ha
          simp
    · refine ⟨(readLoop env.sendLimit 0 env.events).1.map Action.send, ?_, ?_⟩
      · simp [execute_NODE, hn, hr]
      · intro a ha
        simp only [List.mem_map] at ha
        obtain ⟨f, -, rfl⟩ := ha
        simp
    · refine ⟨(readLoop env.sendLimit 0 env.events).1.map Action.send, ?_, ?_⟩
      · simp [execute_NODE, hn, hr]
      · intro a ha
        simp only [List.mem_map] at ha
        obtain ⟨f, -, rfl⟩ := ha
        simp

end KodeRunner
